import Mathlib

set_option autoImplicit false

/-!
Verification of the change-tracking and commit-reconciliation core of the
dsms-python-sdk repository.

The repository ships the SDK's documentation, tutorial notebooks with recorded
session outputs, and packaging metadata; the Python implementation of
`dsms/knowledge` and `dsms/core` itself is not part of the source tree
available here.  The definitions below therefore embed the core data model and
operations as described by the specification (change-tracked sequences,
knowledge entities, the session buffers and the commit engine), with the
tutorial notebooks' recorded behaviour taken as authoritative where the two
disagree (notably: the updation tutorial's note that `append`/`extend` skip
model validation, which only surfaces when committing).
-/

namespace DSMS

/-- Error taxonomy of the core (spec section 7): local schema violations and
removal of absent elements. -/
inductive SDKError
  | validationError
  | notFoundError
deriving DecidableEq, Repr

/-- Modelled from the spec: the Change-Tracked Sequence of section 4.1 / 3
(the `KItemPropertyList` of the SDK, whose source is not in the tree).  It
wraps the visible elements of one list slot together with the last-synced
baseline and the pending addition/deletion sets, tracked by identity of the
sub-object's natural key, not by position. -/
structure TrackedList (α : Type) where
  baseline : Finset α
  visible : Finset α
  additions : Finset α
  deletions : Finset α
deriving DecidableEq

variable {α : Type} [DecidableEq α]

/-- A freshly synchronized slot: the visible contents are the baseline and no
changes are pending. -/
def TrackedList.ofBaseline (b : Finset α) : TrackedList α :=
  ⟨b, b, ∅, ∅⟩

/-- `pending_additions()` of spec section 4.1. -/
def TrackedList.pending_additions (s : TrackedList α) : Finset α :=
  s.additions

/-- `pending_deletions()` of spec section 4.1. -/
def TrackedList.pending_deletions (s : TrackedList α) : Finset α :=
  s.deletions

/-- `mark_synced()` of spec section 4.1: clears both pending sets and adopts
the current visible contents as the new baseline. -/
def TrackedList.mark_synced (s : TrackedList α) : TrackedList α :=
  ⟨s.visible, s.visible, ∅, ∅⟩

/-- Appending one element.  Re-appending an element removed in the same
uncommitted window cancels the pending deletion (net no-op, spec section 3 and
section 9); appending an element already visible is a no-op under the natural
key identity of sub-objects. -/
def TrackedList.append (s : TrackedList α) (x : α) : TrackedList α :=
  if x ∈ s.visible then s
  else if x ∈ s.deletions then
    ⟨s.baseline, insert x s.visible, s.additions, s.deletions.erase x⟩
  else
    ⟨s.baseline, insert x s.visible, insert x s.additions, s.deletions⟩

/-- Remove-by-value.  Removing an element added in the same uncommitted window
cancels the pending addition; removing an absent element fails with
NotFoundError (spec section 4.1 Errors). -/
def TrackedList.removeValue (s : TrackedList α) (x : α) :
    Except SDKError (TrackedList α) :=
  if x ∈ s.visible then
    if x ∈ s.additions then
      .ok ⟨s.baseline, s.visible.erase x, s.additions.erase x, s.deletions⟩
    else
      .ok ⟨s.baseline, s.visible.erase x, s.additions, insert x s.deletions⟩
  else
    .error .notFoundError

/-- Remove-by-value with the failure case leaving the slot untouched (the
raised NotFoundError aborts the mutation with no partial apply). -/
def TrackedList.removeLocal (s : TrackedList α) (x : α) : TrackedList α :=
  match s.removeValue x with
  | .ok s' => s'
  | .error _ => s

/-- The net-diff characterization: the pending sets are exactly the set
differences between the visible contents and the baseline. -/
def TrackedList.Netted (s : TrackedList α) : Prop :=
  s.additions = s.visible \ s.baseline ∧ s.deletions = s.baseline \ s.visible

theorem TrackedList.netted_ofBaseline (b : Finset α) :
    (TrackedList.ofBaseline b).Netted := by
  constructor <;> simp [TrackedList.ofBaseline]

theorem TrackedList.netted_mark_synced (s : TrackedList α) :
    s.mark_synced.Netted := by
  constructor <;> simp [TrackedList.mark_synced]

theorem TrackedList.append_baseline (s : TrackedList α) (x : α) :
    (s.append x).baseline = s.baseline := by
  unfold TrackedList.append
  split <;> [rfl; skip]
  split <;> rfl

theorem TrackedList.append_visible (s : TrackedList α) (x : α) :
    (s.append x).visible = insert x s.visible := by
  unfold TrackedList.append
  split
  · next h => exact (Finset.insert_eq_self.mpr h).symm
  · split <;> rfl

theorem TrackedList.netted_append (s : TrackedList α) (x : α)
    (hs : s.Netted) : (s.append x).Netted := by
  obtain ⟨ha, hd⟩ := hs
  unfold TrackedList.append
  split
  · next hv => exact ⟨ha, hd⟩
  · next hv =>
    split
    · next hdel =>
      have hxb : x ∈ s.baseline := (Finset.mem_sdiff.mp (hd ▸ hdel)).1
      refine ⟨?_, ?_⟩
      · simp only [ha]
        ext y
        simp only [Finset.mem_sdiff, Finset.mem_insert]
        constructor
        · rintro ⟨hy, hyb⟩
          exact ⟨Or.inr hy, hyb⟩
        · rintro ⟨hy | hy, hyb⟩
          · exact absurd hxb (hy ▸ hyb)
          · exact ⟨hy, hyb⟩
      · simp only [hd]
        ext y
        simp only [Finset.mem_erase, Finset.mem_sdiff, Finset.mem_insert]
        constructor
        · rintro ⟨hyx, hyb, hyv⟩
          exact ⟨hyb, fun h => h.elim hyx hyv⟩
        · rintro ⟨hyb, hy⟩
          push_neg at hy
          exact ⟨hy.1, hyb, hy.2⟩
    · next hdel =>
      have hxb : x ∉ s.baseline := by
        intro hxb
        exact hdel (hd ▸ Finset.mem_sdiff.mpr ⟨hxb, hv⟩)
      refine ⟨?_, ?_⟩
      · simp only [ha]
        ext y
        simp only [Finset.mem_insert, Finset.mem_sdiff]
        constructor
        · rintro (rfl | ⟨hy, hyb⟩)
          · exact ⟨Or.inl rfl, hxb⟩
          · exact ⟨Or.inr hy, hyb⟩
        · rintro ⟨rfl | hy, hyb⟩
          · exact Or.inl rfl
          · exact Or.inr ⟨hy, hyb⟩
      · simp only [hd]
        ext y
        simp only [Finset.mem_sdiff, Finset.mem_insert]
        constructor
        · rintro ⟨hyb, hyv⟩
          refine ⟨hyb, fun h => ?_⟩
          rcases h with rfl | h
          · exact hxb hyb
          · exact hyv h
        · rintro ⟨hyb, hy⟩
          exact ⟨hyb, fun h => hy (Or.inr h)⟩

theorem TrackedList.removeLocal_baseline (s : TrackedList α) (x : α) :
    (s.removeLocal x).baseline = s.baseline := by
  unfold TrackedList.removeLocal TrackedList.removeValue
  split
  · next heq =>
    split at heq <;> [skip; simp_all]
    split at heq <;> (cases heq; rfl)
  · rfl

theorem TrackedList.netted_removeLocal (s : TrackedList α) (x : α)
    (hs : s.Netted) : (s.removeLocal x).Netted := by
  obtain ⟨ha, hd⟩ := hs
  unfold TrackedList.removeLocal TrackedList.removeValue
  split
  · next s' heq =>
    by_cases hv : x ∈ s.visible
    · rw [if_pos hv] at heq
      by_cases hadd : x ∈ s.additions
      · rw [if_pos hadd] at heq
        cases heq
        have hxb : x ∉ s.baseline := (Finset.mem_sdiff.mp (ha ▸ hadd)).2
        refine ⟨?_, ?_⟩
        · simp only [ha]
          ext y
          simp only [Finset.mem_erase, Finset.mem_sdiff]
          tauto
        · simp only [hd]
          ext y
          simp only [Finset.mem_sdiff, Finset.mem_erase]
          constructor
          · rintro ⟨hyb, hyv⟩
            exact ⟨hyb, fun h => hyv h.2⟩
          · rintro ⟨hyb, hy⟩
            refine ⟨hyb, fun hyv => ?_⟩
            rcases eq_or_ne y x with rfl | hne
            · exact hxb hyb
            · exact hy ⟨hne, hyv⟩
      · rw [if_neg hadd] at heq
        cases heq
        have hxb : x ∈ s.baseline := by
          by_contra hxb
          exact hadd (ha ▸ Finset.mem_sdiff.mpr ⟨hv, hxb⟩)
        refine ⟨?_, ?_⟩
        · simp only [ha]
          ext y
          simp only [Finset.mem_sdiff, Finset.mem_erase]
          constructor
          · rintro ⟨hyv, hyb⟩
            rcases eq_or_ne y x with rfl | hne
            · exact absurd hxb hyb
            · exact ⟨⟨hne, hyv⟩, hyb⟩
          · rintro ⟨⟨hne, hyv⟩, hyb⟩
            exact ⟨hyv, hyb⟩
        · simp only [hd]
          ext y
          simp only [Finset.mem_insert, Finset.mem_sdiff, Finset.mem_erase]
          constructor
          · rintro (rfl | ⟨hyb, hyv⟩)
            · exact ⟨hxb, fun h => h.1 rfl⟩
            · exact ⟨hyb, fun h => hyv h.2⟩
          · rintro ⟨hyb, hy⟩
            push_neg at hy
            rcases eq_or_ne y x with rfl | hne
            · exact Or.inl rfl
            · exact Or.inr ⟨hyb, hy hne⟩
    · rw [if_neg hv] at heq
      cases heq
  · exact ⟨ha, hd⟩

/-- The caller-facing mutation language of one change-tracked list slot:
append and remove-by-value (spec section 4.1). -/
inductive ListOp (α : Type)
  | append (x : α)
  | remove (x : α)
deriving DecidableEq

/-- One mutation step; a remove of an absent element raises and leaves the
slot untouched, which here shows up as the identity step. -/
def TrackedList.applyListOp (s : TrackedList α) : ListOp α → TrackedList α
  | .append x => s.append x
  | .remove x => s.removeLocal x

/-- A whole sequence of append/remove operations since the last
synchronization point. -/
def TrackedList.runOps (s : TrackedList α) (ops : List (ListOp α)) :
    TrackedList α :=
  ops.foldl TrackedList.applyListOp s

theorem TrackedList.netted_applyListOp (s : TrackedList α) (op : ListOp α)
    (hs : s.Netted) : (s.applyListOp op).Netted := by
  cases op with
  | append x => exact s.netted_append x hs
  | remove x => exact s.netted_removeLocal x hs

theorem TrackedList.netted_runOps (s : TrackedList α) (ops : List (ListOp α))
    (hs : s.Netted) : (s.runOps ops).Netted := by
  induction ops generalizing s with
  | nil => exact hs
  | cons op ops ih => exact ih _ (s.netted_applyListOp op hs)

theorem TrackedList.applyListOp_baseline (s : TrackedList α) (op : ListOp α) :
    (s.applyListOp op).baseline = s.baseline := by
  cases op with
  | append x => exact s.append_baseline x
  | remove x => exact s.removeLocal_baseline x

theorem TrackedList.runOps_baseline (s : TrackedList α) (ops : List (ListOp α)) :
    (s.runOps ops).baseline = s.baseline := by
  induction ops generalizing s with
  | nil => rfl
  | cons op ops ih => rw [TrackedList.runOps, List.foldl_cons,
      ← TrackedList.runOps, ih, TrackedList.applyListOp_baseline]

/-- Two pure set identities relating the net diff to the visibility
equation. -/
theorem netted_visible_eq (b v : Finset α) :
    (b ∪ (v \ b)) \ (b \ v) = v := by
  ext y
  simp only [Finset.mem_sdiff, Finset.mem_union]
  tauto

theorem netted_disjoint (b v : Finset α) :
    (v \ b) ∩ (b \ v) = ∅ := by
  ext y
  simp only [Finset.mem_inter, Finset.mem_sdiff, Finset.not_mem_empty,
    iff_false]
  tauto

/-- Clearing a slot: every visible baseline element becomes a pending
deletion, pending additions of the window are dropped. -/
def TrackedList.clear (s : TrackedList α) : TrackedList α :=
  ⟨s.baseline, ∅, s.additions \ s.visible, s.deletions ∪ s.baseline ∩ s.visible⟩

theorem TrackedList.netted_clear (s : TrackedList α) (hs : s.Netted) :
    s.clear.Netted := by
  obtain ⟨ha, hd⟩ := hs
  constructor
  · simp only [TrackedList.clear, ha]
    ext y
    simp only [Finset.mem_sdiff, Finset.not_mem_empty]
    tauto
  · simp only [TrackedList.clear, hd]
    ext y
    simp only [Finset.mem_union, Finset.mem_inter, Finset.mem_sdiff,
      Finset.not_mem_empty]
    tauto

/-- Appending a whole list of elements in order. -/
def TrackedList.appendAll (s : TrackedList α) (l : List α) : TrackedList α :=
  l.foldl TrackedList.append s

/-- Whole-slot replacement (`item.affiliations = [...]` in the tutorials):
clear the slot, then append the newly assigned sequence. -/
def TrackedList.assign (s : TrackedList α) (l : List α) : TrackedList α :=
  s.clear.appendAll l

theorem TrackedList.netted_appendAll (s : TrackedList α) (l : List α)
    (hs : s.Netted) : (s.appendAll l).Netted := by
  induction l generalizing s with
  | nil => exact hs
  | cons x l ih => exact ih _ (s.netted_append x hs)

theorem TrackedList.appendAll_baseline (s : TrackedList α) (l : List α) :
    (s.appendAll l).baseline = s.baseline := by
  induction l generalizing s with
  | nil => rfl
  | cons x l ih => rw [TrackedList.appendAll, List.foldl_cons,
      ← TrackedList.appendAll, ih, TrackedList.append_baseline]

theorem TrackedList.appendAll_visible (s : TrackedList α) (l : List α) :
    (s.appendAll l).visible = s.visible ∪ l.toFinset := by
  induction l generalizing s with
  | nil => simp [TrackedList.appendAll]
  | cons x l ih =>
    rw [TrackedList.appendAll, List.foldl_cons, ← TrackedList.appendAll, ih,
      TrackedList.append_visible, List.toFinset_cons]
    ext y
    simp only [Finset.mem_union, Finset.mem_insert, List.mem_toFinset]
    tauto

theorem TrackedList.assign_spec (s : TrackedList α) (l : List α)
    (hs : s.Netted) :
    (s.assign l).visible = l.toFinset ∧
    (s.assign l).pending_additions = l.toFinset \ s.baseline ∧
    (s.assign l).pending_deletions = s.baseline \ l.toFinset := by
  have hb : (s.assign l).baseline = s.baseline := by
    rw [TrackedList.assign, TrackedList.appendAll_baseline]; rfl
  have hv : (s.assign l).visible = l.toFinset := by
    rw [TrackedList.assign, TrackedList.appendAll_visible]
    simp [TrackedList.clear]
  have hn : (s.assign l).Netted :=
    TrackedList.netted_appendAll _ _ (s.netted_clear hs)
  obtain ⟨ha, hd⟩ := hn
  exact ⟨hv, by rw [TrackedList.pending_additions, ha, hv, hb],
    by rw [TrackedList.pending_deletions, hd, hv, hb]⟩

/-- The plain `list.append` path.  Modelled from the updation tutorial's note
(3_updation, section 3.2): "using `append` or `extend` will not validate the
pydantic model of the respective fields and hence will cause an error during
commiting" — the element is added without consulting the sub-object schema. -/
def TrackedList.appendRaw (valid : α → Bool) (s : TrackedList α) (x : α) :
    Except SDKError (TrackedList α) :=
  .ok (s.append x)

/-- The validated accumulation path (`+=` / whole-slot assignment, the route
the tutorial recommends): the candidate is validated against the sub-object
schema first and a failure raises ValidationError with no mutation. -/
def TrackedList.appendChecked (valid : α → Bool) (s : TrackedList α) (x : α) :
    Except SDKError (TrackedList α) :=
  if valid x then .ok (s.append x) else .error .validationError

/-- The slot state the caller observes after an attempted checked append: on
a raised ValidationError the slot is left exactly as it was. -/
def TrackedList.appendCheckedState (valid : α → Bool) (s : TrackedList α)
    (x : α) : TrackedList α :=
  match TrackedList.appendChecked valid s x with
  | .ok s' => s'
  | .error _ => s

/-- Commit-time validation of one slot: serializing the patch validates every
pending addition against the sub-object schema; an invalid element smuggled in
by the raw `append` path surfaces here. -/
def TrackedList.commitValidation (valid : α → Bool) (s : TrackedList α) :
    Except SDKError Unit :=
  if ∀ x ∈ s.additions, valid x = true then .ok () else .error .validationError

/-- A concrete sub-object schema for the counterexample: the natural key 0 is
rejected, everything else is accepted. -/
def nonzeroSchema : ℕ → Bool := fun n => n ≠ 0

/-- An empty, freshly synchronized slot. -/
def emptySlot : TrackedList ℕ := TrackedList.ofBaseline ∅

/-- C1, counterexample.  The claim says appending a schema-invalid value
raises a ValidationError synchronously before the element is added and that
the error is never deferred to commit time.  On the behaviour documented by
the repository's own updation tutorial, the plain `append` path does not
validate at all: appending the invalid value 0 succeeds, the element becomes
visible, and the ValidationError is raised only by commit-time validation. -/
theorem C1_counterexample :
    nonzeroSchema 0 = false ∧
    TrackedList.appendRaw nonzeroSchema emptySlot 0 =
      Except.ok (emptySlot.append 0) ∧
    (emptySlot.append 0).visible = {0} ∧
    emptySlot.visible = ∅ ∧
    TrackedList.commitValidation nonzeroSchema (emptySlot.append 0) =
      Except.error SDKError.validationError := by
  refine ⟨rfl, rfl, by decide, rfl, rfl⟩

/-- C1, amended.  Appending through the validated accumulation path (`+=` /
assignment, the route the tutorials prescribe) raises ValidationError
synchronously at the call site with the slot — visible contents and both
pending sets — left identical to its pre-call state; the plain `append`
method skips the schema check and the ValidationError is raised at commit
time instead, when the pending additions are validated. -/
theorem C1_amended (valid : ℕ → Bool) (s : TrackedList ℕ) (x : ℕ)
    (hx : valid x = false) (hfresh : x ∉ s.visible) (hdel : x ∉ s.deletions) :
    TrackedList.appendChecked valid s x = Except.error SDKError.validationError ∧
    TrackedList.appendCheckedState valid s x = s ∧
    TrackedList.appendRaw valid s x = Except.ok (s.append x) ∧
    TrackedList.commitValidation valid (s.append x) =
      Except.error SDKError.validationError := by
  have hch : TrackedList.appendChecked valid s x =
      Except.error SDKError.validationError := by
    unfold TrackedList.appendChecked
    rw [hx]
    rfl
  refine ⟨hch, ?_, rfl, ?_⟩
  · unfold TrackedList.appendCheckedState
    rw [hch]
  · unfold TrackedList.commitValidation
    have hadd : (s.append x).additions = insert x s.additions := by
      unfold TrackedList.append
      rw [if_neg hfresh, if_neg hdel]
    rw [hadd, if_neg]
    intro h
    have := h x (Finset.mem_insert_self x s.additions)
    rw [hx] at this
    exact Bool.false_ne_true this

/-- C1, witness for the amended theorem at a concrete input: schema rejecting
0, empty synced slot, candidate 0. -/
theorem C1_amended_witness :
    TrackedList.appendChecked nonzeroSchema emptySlot 0 =
      Except.error SDKError.validationError ∧
    TrackedList.appendCheckedState nonzeroSchema emptySlot 0 = emptySlot ∧
    TrackedList.appendRaw nonzeroSchema emptySlot 0 =
      Except.ok (emptySlot.append 0) ∧
    TrackedList.commitValidation nonzeroSchema (emptySlot.append 0) =
      Except.error SDKError.validationError :=
  C1_amended nonzeroSchema emptySlot 0 (by decide) (by decide) (by decide)

/-- C3.  For every baseline and every sequence of append/remove operations on
a change-tracked list slot since the last synchronization point: the visible
elements equal (baseline ∪ additions) − deletions, the pending sets are
disjoint, and the pending sets are exactly the minimal net patch (the two set
differences between visible contents and baseline), so add-then-remove and
remove-then-re-add of the same element cancel within one uncommitted
window. -/
theorem C3_tracked_list_invariant (b : Finset ℕ) (ops : List (ListOp ℕ)) :
    ((TrackedList.ofBaseline b).runOps ops).visible =
      (((TrackedList.ofBaseline b).runOps ops).baseline ∪
        ((TrackedList.ofBaseline b).runOps ops).pending_additions) \
        ((TrackedList.ofBaseline b).runOps ops).pending_deletions ∧
    ((TrackedList.ofBaseline b).runOps ops).pending_additions ∩
      ((TrackedList.ofBaseline b).runOps ops).pending_deletions = ∅ ∧
    ((TrackedList.ofBaseline b).runOps ops).pending_additions =
      ((TrackedList.ofBaseline b).runOps ops).visible \ b ∧
    ((TrackedList.ofBaseline b).runOps ops).pending_deletions =
      b \ ((TrackedList.ofBaseline b).runOps ops).visible := by
  have hb : ((TrackedList.ofBaseline b).runOps ops).baseline = b :=
    TrackedList.runOps_baseline _ _
  obtain ⟨ha, hd⟩ := TrackedList.netted_runOps (TrackedList.ofBaseline b) ops
    (TrackedList.netted_ofBaseline b)
  rw [TrackedList.pending_additions, TrackedList.pending_deletions, hb] at *
  refine ⟨?_, ?_, ha, hd⟩
  · rw [ha, hd, netted_visible_eq]
  · rw [ha, hd, netted_disjoint]

/-- C7.  Whole-slot replacement: assigning an entirely new sequence to a
change-tracked list slot yields pending deletions = baseline − new sequence
and pending additions = new sequence − baseline, and after a successful
commit (`mark_synced`) the visible contents equal the assigned sequence. -/
theorem C7_whole_slot_replacement (b : Finset ℕ) (ops : List (ListOp ℕ))
    (l : List ℕ) :
    (((TrackedList.ofBaseline b).runOps ops).assign l).pending_additions =
      l.toFinset \ b ∧
    (((TrackedList.ofBaseline b).runOps ops).assign l).pending_deletions =
      b \ l.toFinset ∧
    (((TrackedList.ofBaseline b).runOps ops).assign l).visible = l.toFinset ∧
    ((((TrackedList.ofBaseline b).runOps ops).assign l).mark_synced).visible =
      l.toFinset := by
  have hb : ((TrackedList.ofBaseline b).runOps ops).baseline = b :=
    TrackedList.runOps_baseline _ _
  have hn : ((TrackedList.ofBaseline b).runOps ops).Netted :=
    TrackedList.netted_runOps _ _ (TrackedList.netted_ofBaseline b)
  obtain ⟨hv, ha, hd⟩ := TrackedList.assign_spec _ l hn
  rw [hb] at ha hd
  exact ⟨ha, hd, hv, by rw [TrackedList.mark_synced, hv]⟩

/-- Custom-property values as they appear in the tutorials: scalars and lists
of scalars (e.g. Width: 0.5, Length: [0.1, 0.2]). -/
inductive CVal
  | num (q : ℚ)
  | arr (l : List ℚ)
  | str (s : String)
deriving DecidableEq

/-- A flat custom-properties bag: ordered key/value entries. -/
abbrev Props := List (String × CVal)

def lookupProp (ps : Props) (k : String) : Option CVal :=
  (ps.find? fun p => decide (p.1 = k)).map Prod.snd

def setProp (ps : Props) (k : String) (v : CVal) : Props :=
  if ps.any fun p => decide (p.1 = k) then
    ps.map fun p => if p.1 = k then (k, v) else p
  else ps ++ [(k, v)]

/-- The mapping-slot diff: the entries of the current bag whose value differs
from (or is absent in) the last-synced baseline. -/
def changedProps (base current : Props) : Props :=
  current.filter fun p => decide (lookupProp base p.1 ≠ some p.2)

/-- Modelled from the spec: the Knowledge Entity aggregate (the `KItem` of the
SDK, whose Python source is not in the tree).  Identity and timestamps are
server-assigned and absent before first creation; `custom_baseline` is the
last-synced snapshot of the custom-properties bag; `dirtyFlag` realizes the
spec's "every mutating operation marks the owning entity dirty" and is cleared
only by `apply_server_snapshot`. -/
structure KItem where
  id : Option String
  name : String
  slug : Option String
  ktype_id : String
  created_at : Option ℕ
  updated_at : Option ℕ
  custom_baseline : Props
  custom_properties : Props
  attachments : TrackedList String
  dirtyFlag : Bool
deriving DecidableEq

/-- `is_dirty()` of spec section 4.3: pending local changes, or never yet
created. -/
def KItem.is_dirty (it : KItem) : Bool :=
  it.dirtyFlag || it.id.isNone

/-- The authoritative server payload an entity is refreshed from. -/
structure Snapshot where
  id : String
  name : String
  slug : String
  ktype_id : String
  created_at : ℕ
  updated_at : ℕ
  custom : Props
  attachments : Finset String
deriving DecidableEq

/-- `apply_server_snapshot(data)` of spec section 4.3: wholesale-overwrites
every field — identity and timestamps included — from the authoritative
server payload and marks every slot synced. -/
def apply_server_snapshot (it : KItem) (snap : Snapshot) : KItem :=
  { id := some snap.id
    name := snap.name
    slug := some snap.slug
    ktype_id := snap.ktype_id
    created_at := some snap.created_at
    updated_at := some snap.updated_at
    custom_baseline := snap.custom
    custom_properties := snap.custom
    attachments := TrackedList.ofBaseline snap.attachments
    dirtyFlag := false }

/-- ASCII lowercasing of one character. -/
def lowerChar (c : Char) : Char :=
  if c.isUpper then Char.ofNat (c.toNat + 32) else c

/-- Lowercasing slugification as recorded in the creation tutorial
(Specimen123 with id 73d648b4-... receives slug specimen123-73d648b4). -/
def slugify (n : String) : String := ⟨n.data.map lowerChar⟩

/-- The first n characters of a string. -/
def takeChars (n : ℕ) (s : String) : String := ⟨s.data.take n⟩

/-- Automatic slug derivation: with the `individual_slugs` configuration
enabled (its default), the slug receives the first 8 characters of the
server-assigned id. -/
def genSlug (individual : Bool) (n uid : String) : String :=
  if individual then slugify n ++ "-" ++ takeChars 8 uid else slugify n

/-- The caller-facing mutation language of one Knowledge Entity.  Identity is
server-assigned and has no setter; the type reference may only be set while
the entity has never been created (spec section 3: immutable after
creation). -/
inductive KOp
  | setName (v : String)
  | setSlug (v : String)
  | setKtype (v : String)
  | setCustom (k : String) (v : CVal)
  | addAttachment (n : String)
  | removeAttachment (n : String)
  | assignAttachments (l : List String)
deriving DecidableEq

def KItem.applyKOp (it : KItem) : KOp → KItem
  | .setName v => { it with name := v, dirtyFlag := true }
  | .setSlug v => { it with slug := some v, dirtyFlag := true }
  | .setKtype v =>
    { it with ktype_id := if it.id.isNone then v else it.ktype_id,
              dirtyFlag := true }
  | .setCustom k v =>
    { it with custom_properties := setProp it.custom_properties k v,
              dirtyFlag := true }
  | .addAttachment n =>
    { it with attachments := it.attachments.append n, dirtyFlag := true }
  | .removeAttachment n =>
    { it with attachments := it.attachments.removeLocal n, dirtyFlag := true }
  | .assignAttachments l =>
    { it with attachments := it.attachments.assign l, dirtyFlag := true }

def KItem.applyKOps (it : KItem) (ops : List KOp) : KItem :=
  ops.foldl KItem.applyKOp it

/-- The remote operations a commit pass can issue (spec section 6). -/
inductive Request
  | createItem (name : String) (ktype : String) (custom : Props)
  | patchItem (id : String) (payload : Props)
  | uploadAttachment (id : String) (name : String)
  | deleteAttachment (id : String) (name : String)
  | deleteItem (id : String)
deriving DecidableEq

def Request.isCreate : Request → Bool
  | .createItem _ _ _ => true
  | _ => false

def Request.isPatch : Request → Bool
  | .patchItem _ _ => true
  | _ => false

def Request.isUpload : Request → Bool
  | .uploadAttachment _ _ => true
  | _ => false

def Request.isPatchOrDelete : Request → Bool
  | .patchItem _ _ => true
  | .deleteAttachment _ _ => true
  | .deleteItem _ => true
  | _ => false

/-- The test-double transport: the server clock, the identities it assigns to
creations (in order), and the per-request success outcome. -/
structure Server where
  now : ℕ
  freshIds : List String
  ok : Request → Bool

/-- The Session buffers (`dsms.buffers`): entities staged for addition,
update and deletion in the current unit of work. -/
structure Session where
  added : List KItem
  updated : List KItem
  deleted : List KItem
deriving DecidableEq

def Session.empty : Session := ⟨[], [], []⟩

/-- `dsms.add(obj)`: stages an object; identity-less objects are staged for
creation, persisted ones for update. -/
def Session.add (s : Session) (it : KItem) : Session :=
  if it.id.isNone then { s with added := s.added ++ [it] }
  else { s with updated := s.updated ++ [it] }

/-- `del dsms[obj]`: stages an object for deletion. -/
def Session.stageDelete (s : Session) (it : KItem) : Session :=
  { s with deleted := s.deleted ++ [it] }

/-- The custom-properties part of an update patch: the net mapping diff. -/
def payloadOf (it : KItem) : Props :=
  changedProps it.custom_baseline it.custom_properties

def createReq (it : KItem) : Request :=
  .createItem it.name it.ktype_id it.custom_properties

/-- A deterministic linearization of a set of attachment names, by sorted
order of the natural key. -/
def sortedKeys (s : Finset String) : List String :=
  Quot.liftOn s.val (fun l => l.insertionSort (· ≤ ·)) fun a b h => by
    refine List.eq_of_perm_of_sorted ?_ (List.sorted_insertionSort _ a)
      (List.sorted_insertionSort _ b)
    exact ((List.perm_insertionSort _ a).trans h).trans
      (List.perm_insertionSort _ b).symm

def uploadReqs (i : String) (it : KItem) : List Request :=
  (sortedKeys it.attachments.pending_additions).map (Request.uploadAttachment i)

def subDeleteReqs (i : String) (it : KItem) : List Request :=
  (sortedKeys it.attachments.pending_deletions).map (Request.deleteAttachment i)

/-- All remote operations belonging to one created entity. -/
def createEntityReqs (u : String) (it : KItem) : List Request :=
  createReq it :: (uploadReqs u it ++ subDeleteReqs u it)

/-- All remote operations belonging to one updated entity. -/
def patchEntityReqs (i : String) (it : KItem) : List Request :=
  Request.patchItem i (payloadOf it) :: (uploadReqs i it ++ subDeleteReqs i it)

/-- The canonical server representation fetched after a successful creation:
server-assigned identity, both timestamps set to the server clock, slug
derived from the name when the caller supplied none. -/
def createSnap (srv : Server) (individual : Bool) (u : String) (it : KItem) :
    Snapshot :=
  { id := u
    name := it.name
    slug := it.slug.getD (genSlug individual it.name u)
    ktype_id := it.ktype_id
    created_at := srv.now
    updated_at := srv.now
    custom := it.custom_properties
    attachments := it.attachments.visible }

/-- The canonical server representation fetched after a successful update:
same identity, original creation instant, updated instant set to the server
clock. -/
def updateSnap (srv : Server) (individual : Bool) (i : String) (it : KItem) :
    Snapshot :=
  { id := i
    name := it.name
    slug := it.slug.getD (genSlug individual it.name i)
    ktype_id := it.ktype_id
    created_at := it.created_at.getD srv.now
    updated_at := srv.now
    custom := it.custom_properties
    attachments := it.attachments.visible }

/-- Post-commit state of one created entity: refreshed from the canonical
snapshot exactly when all of its operations succeeded, otherwise left
untouched (and so still dirty, diff intact, safe to retry). -/
def createResult (srv : Server) (individual : Bool) (u : String)
    (it : KItem) : KItem :=
  if (createEntityReqs u it).all srv.ok then
    apply_server_snapshot it (createSnap srv individual u it)
  else it

/-- Post-commit state of one updated entity, analogously. -/
def patchResult (srv : Server) (individual : Bool) (it : KItem) : KItem :=
  match it.id with
  | some i =>
    if (patchEntityReqs i it).all srv.ok then
      apply_server_snapshot it (updateSnap srv individual i it)
    else it
  | none => it

/-- The aggregate error of a partially failed pass: the operations that
succeeded and the operations that failed, both enumerated. -/
structure PartialCommitError where
  succeeded : List Request
  failed : List Request
deriving DecidableEq

/-- The UserWarning recorded in the ktype tutorial when committing with empty
buffers (dsms/core/dsms.py:175). -/
def nothingToCommitMsg : String :=
  "Nothing to commit. No changes have been made to the DSMS instance."

structure CommitOutcome where
  trace : List Request
  created : List KItem
  updated : List KItem
  warning : Option String
  error : Option PartialCommitError
deriving DecidableEq

/-- Creation requests of a pass: one per staged identity-less entity. -/
def createPhase (s : Session) : List Request :=
  s.added.map createReq

/-- Structural patch requests of a pass. -/
def patchPhase (s : Session) : List Request :=
  s.updated.filterMap fun it => it.id.map fun i => Request.patchItem i (payloadOf it)

/-- The created entities of a pass paired with their server-assigned ids. -/
def assignedCreates (srv : Server) (s : Session) : List (String × KItem) :=
  s.added.enum.map fun p => (srv.freshIds.getD p.1 "", p.2)

/-- Addresses an entity's sub-object requests via its identity; an entity
without identity contributes none. -/
def withIdReqs (f : String → KItem → List Request) (it : KItem) :
    List Request :=
  match it.id with
  | some i => f i it
  | none => []

/-- Sub-object uploads of a pass, addressed via the now-known identities. -/
def uploadPhase (srv : Server) (s : Session) : List Request :=
  ((assignedCreates srv s).map fun p => uploadReqs p.1 p.2).flatten ++
    (s.updated.map (withIdReqs uploadReqs)).flatten

/-- Sub-object deletions of a pass, after the uploads. -/
def subDeletePhase (srv : Server) (s : Session) : List Request :=
  ((assignedCreates srv s).map fun p => subDeleteReqs p.1 p.2).flatten ++
    (s.updated.map (withIdReqs subDeleteReqs)).flatten

/-- Entity deletions of a pass, last. -/
def itemDeletePhase (s : Session) : List Request :=
  s.deleted.filterMap fun it => it.id.map Request.deleteItem

/-- The full ordered request trace of one commit pass (spec section 4.4):
creations, then structural patches, then sub-object uploads, then sub-object
deletions, then entity deletions. -/
def phasesTrace (srv : Server) (s : Session) : List Request :=
  createPhase s ++
    (patchPhase s ++ (uploadPhase srv s ++ (subDeletePhase srv s ++ itemDeletePhase s)))

/-- Modelled from the spec: one commit pass of the Commit Engine (sections 4.4
and 7; the `dsms.commit()` implementation is not in the tree).  Empty buffers
produce no remote operation and a UserWarning.  Otherwise every independent
operation is attempted, entities all of whose operations succeeded are
refreshed from their canonical snapshots, failed entities are left untouched,
and a pass with any failed operation reports a single PartialCommitError
enumerating the succeeded and the failed operations. -/
def commit (srv : Server) (individual : Bool) (s : Session) : CommitOutcome :=
  if s.added = [] ∧ s.updated = [] ∧ s.deleted = [] then
    ⟨[], [], [], some nothingToCommitMsg, none⟩
  else
    let trace := phasesTrace srv s
    let failed := trace.filter fun r => !(srv.ok r)
    ⟨trace,
      (assignedCreates srv s).map fun p => createResult srv individual p.1 p.2,
      s.updated.map (patchResult srv individual),
      none,
      if failed.isEmpty then none
      else some ⟨trace.filter srv.ok, failed⟩⟩

/-- In a list split into a prefix whose elements all satisfy `p` and a suffix
whose elements all refute it, any index satisfying `p` comes strictly before
any index refuting it. -/
theorem prefix_pred_before {β : Type} (p : β → Bool) (l₁ l₂ : List β)
    (h₁ : ∀ r ∈ l₁, p r = true) (h₂ : ∀ r ∈ l₂, p r = false)
    (i j : ℕ) (hi : i < (l₁ ++ l₂).length) (hj : j < (l₁ ++ l₂).length)
    (hpi : p ((l₁ ++ l₂)[i]) = true) (hpj : p ((l₁ ++ l₂)[j]) = false) :
    i < j := by
  have hi1 : i < l₁.length := by
    by_contra h
    push_neg at h
    rw [List.getElem_append_right h] at hpi
    rw [h₂ _ (List.getElem_mem _)] at hpi
    exact Bool.false_ne_true hpi
  have hj1 : l₁.length ≤ j := by
    by_contra h
    push_neg at h
    rw [List.getElem_append_left h] at hpj
    rw [h₁ _ (List.getElem_mem _)] at hpj
    exact Bool.false_ne_true hpj.symm
  exact lt_of_lt_of_le hi1 hj1

theorem createPhase_isCreate (s : Session) :
    ∀ r ∈ createPhase s, r.isCreate = true := by
  intro r hr
  rw [createPhase, List.mem_map] at hr
  obtain ⟨it, _, rfl⟩ := hr
  rfl

theorem mem_withIdReqs (f : String → KItem → List Request) (it : KItem)
    (r : Request) (h : r ∈ withIdReqs f it) :
    ∃ i, it.id = some i ∧ r ∈ f i it := by
  unfold withIdReqs at h
  rcases hid : it.id with _ | i <;> rw [hid] at h
  · cases h
  · exact ⟨i, rfl, h⟩

theorem uploadReqs_not_isCreate (i : String) (it : KItem) (r : Request)
    (h : r ∈ uploadReqs i it) : r.isCreate = false := by
  rw [uploadReqs, List.mem_map] at h
  obtain ⟨a, _, rfl⟩ := h
  rfl

theorem subDeleteReqs_not_isCreate (i : String) (it : KItem) (r : Request)
    (h : r ∈ subDeleteReqs i it) : r.isCreate = false := by
  rw [subDeleteReqs, List.mem_map] at h
  obtain ⟨a, _, rfl⟩ := h
  rfl

theorem flatten_map_not_isCreate {β : Type} (f : β → List Request)
    (L : List β) (hf : ∀ b, ∀ r ∈ f b, r.isCreate = false) :
    ∀ r ∈ (L.map f).flatten, r.isCreate = false := by
  intro r hr
  rw [List.mem_flatten] at hr
  obtain ⟨l, hl, hrl⟩ := hr
  rw [List.mem_map] at hl
  obtain ⟨b, _, rfl⟩ := hl
  exact hf b r hrl

theorem withIdReqs_uploads_not_isCreate (it : KItem) :
    ∀ r ∈ withIdReqs uploadReqs it, r.isCreate = false := by
  intro r hr
  obtain ⟨i, _, hr'⟩ := mem_withIdReqs _ _ _ hr
  exact uploadReqs_not_isCreate _ _ _ hr'

theorem withIdReqs_subDeletes_not_isCreate (it : KItem) :
    ∀ r ∈ withIdReqs subDeleteReqs it, r.isCreate = false := by
  intro r hr
  obtain ⟨i, _, hr'⟩ := mem_withIdReqs _ _ _ hr
  exact subDeleteReqs_not_isCreate _ _ _ hr'

theorem laterPhases_not_isCreate (srv : Server) (s : Session) :
    ∀ r ∈ patchPhase s ++ (uploadPhase srv s ++
      (subDeletePhase srv s ++ itemDeletePhase s)), r.isCreate = false := by
  intro r hr
  rw [List.mem_append] at hr
  rcases hr with hr | hr
  · rw [patchPhase, List.mem_filterMap] at hr
    obtain ⟨it, _, hmap⟩ := hr
    rw [Option.map_eq_some'] at hmap
    obtain ⟨i, _, rfl⟩ := hmap
    rfl
  rw [List.mem_append] at hr
  rcases hr with hr | hr
  · rw [uploadPhase, List.mem_append] at hr
    rcases hr with hr | hr
    · exact flatten_map_not_isCreate _ _
        (fun (p : String × KItem) => uploadReqs_not_isCreate p.1 p.2) r hr
    · exact flatten_map_not_isCreate _ _ withIdReqs_uploads_not_isCreate r hr
  rw [List.mem_append] at hr
  rcases hr with hr | hr
  · rw [subDeletePhase, List.mem_append] at hr
    rcases hr with hr | hr
    · exact flatten_map_not_isCreate _ _
        (fun (p : String × KItem) => subDeleteReqs_not_isCreate p.1 p.2) r hr
    · exact flatten_map_not_isCreate _ _ withIdReqs_subDeletes_not_isCreate r hr
  · rw [itemDeletePhase, List.mem_filterMap] at hr
    obtain ⟨it, _, hmap⟩ := hr
    rw [Option.map_eq_some'] at hmap
    obtain ⟨i, _, rfl⟩ := hmap
    rfl

theorem Request.isCreate_false_of_isPatchOrDelete (r : Request)
    (h : r.isPatchOrDelete = true) : r.isCreate = false := by
  cases r <;> first | rfl | cases h

/-- C4.  In every commit pass, every creation request is issued strictly
before every patch or delete request of the pass — in particular, with one
identity-less entity and one dirty persisted entity staged together, the
create request is observed before any patch/delete request for sub-objects of
either. -/
theorem commit_trace_cases (srv : Server) (individual : Bool) (s : Session) :
    (commit srv individual s).trace = [] ∨
    (commit srv individual s).trace = phasesTrace srv s := by
  unfold commit
  by_cases hemp : s.added = [] ∧ s.updated = [] ∧ s.deleted = []
  · rw [if_pos hemp]
    exact Or.inl rfl
  · rw [if_neg hemp]
    exact Or.inr rfl

theorem C4_creates_before_patches (srv : Server) (individual : Bool)
    (s : Session) (tr : List Request) (i j : ℕ)
    (htr : (commit srv individual s).trace = tr)
    (hi : i < tr.length) (hj : j < tr.length)
    (hci : (tr[i]).isCreate = true)
    (hcj : (tr[j]).isPatchOrDelete = true) :
    i < j := by
  rcases commit_trace_cases srv individual s with h | h <;> rw [htr] at h
  · subst h
    exact absurd hi (by simp)
  · subst h
    exact prefix_pred_before Request.isCreate _ _
      (createPhase_isCreate s) (laterPhases_not_isCreate srv s) i j hi hj hci
      (Request.isCreate_false_of_isPatchOrDelete _ hcj)

theorem sortedKeys_empty : sortedKeys ∅ = [] := rfl

theorem uploadReqs_nil (i : String) (it : KItem)
    (h : it.attachments.pending_additions = ∅) : uploadReqs i it = [] := by
  rw [uploadReqs, h, sortedKeys_empty, List.map_nil]

theorem subDeleteReqs_nil (i : String) (it : KItem)
    (h : it.attachments.pending_deletions = ∅) : subDeleteReqs i it = [] := by
  rw [subDeleteReqs, h, sortedKeys_empty, List.map_nil]

theorem withIdReqs_eq (f : String → KItem → List Request) (it : KItem)
    (i : String) (h : it.id = some i) : withIdReqs f it = f i it := by
  simp only [withIdReqs]
  rw [h]

theorem patchResult_some (srv : Server) (individual : Bool) (it : KItem)
    (i : String) (h : it.id = some i) :
    patchResult srv individual it =
      if (patchEntityReqs i it).all srv.ok then
        apply_server_snapshot it (updateSnap srv individual i it)
      else it := by
  simp only [patchResult]
  rw [h]

theorem patchEntityReqs_no_subops (i : String) (it : KItem)
    (ha : it.attachments.pending_additions = ∅)
    (hd : it.attachments.pending_deletions = ∅) :
    patchEntityReqs i it = [Request.patchItem i (payloadOf it)] := by
  rw [patchEntityReqs, uploadReqs_nil i it ha, subDeleteReqs_nil i it hd]
  rfl

/-- C2.  In a commit pass where entity A's patch fails and entity B's patch
succeeds, the engine attempts both patch operations (both appear in the
request trace), refreshes and marks clean only B, leaves A exactly as staged —
dirty, with its original diff retained, so that re-invoking commit issues the
same patch again — and raises a single PartialCommitError enumerating the
succeeded and the failed operations. -/
theorem C2_partial_failure (srv : Server) (individual : Bool) (A B : KItem)
    (ia ib : String) (hA : A.id = some ia) (hB : B.id = some ib)
    (hAdirty : A.dirtyFlag = true)
    (hAup : A.attachments.pending_additions = ∅)
    (hAdel : A.attachments.pending_deletions = ∅)
    (hBup : B.attachments.pending_additions = ∅)
    (hBdel : B.attachments.pending_deletions = ∅)
    (hfail : srv.ok (Request.patchItem ia (payloadOf A)) = false)
    (hok : srv.ok (Request.patchItem ib (payloadOf B)) = true) :
    Request.patchItem ia (payloadOf A) ∈
      (commit srv individual ⟨[], [A, B], []⟩).trace ∧
    Request.patchItem ib (payloadOf B) ∈
      (commit srv individual ⟨[], [A, B], []⟩).trace ∧
    (commit srv individual ⟨[], [A, B], []⟩).updated =
      [A, apply_server_snapshot B (updateSnap srv individual ib B)] ∧
    A.is_dirty = true ∧
    (apply_server_snapshot B (updateSnap srv individual ib B)).is_dirty
      = false ∧
    (commit srv individual ⟨[], [A, B], []⟩).error =
      some ⟨[Request.patchItem ib (payloadOf B)],
            [Request.patchItem ia (payloadOf A)]⟩ ∧
    (∀ srv2 : Server, ∀ individual2 : Bool,
      Request.patchItem ia (payloadOf A) ∈
        (commit srv2 individual2 ⟨[], [A], []⟩).trace) := by
  have hwA : withIdReqs uploadReqs A = [] := by
    rw [withIdReqs_eq uploadReqs A ia hA, uploadReqs_nil ia A hAup]
  have hwB : withIdReqs uploadReqs B = [] := by
    rw [withIdReqs_eq uploadReqs B ib hB, uploadReqs_nil ib B hBup]
  have hwA2 : withIdReqs subDeleteReqs A = [] := by
    rw [withIdReqs_eq subDeleteReqs A ia hA, subDeleteReqs_nil ia A hAdel]
  have hwB2 : withIdReqs subDeleteReqs B = [] := by
    rw [withIdReqs_eq subDeleteReqs B ib hB, subDeleteReqs_nil ib B hBdel]
  have htr : (commit srv individual ⟨[], [A, B], []⟩).trace =
      [Request.patchItem ia (payloadOf A), Request.patchItem ib (payloadOf B)] := by
    simp [commit, phasesTrace, createPhase, patchPhase, uploadPhase,
      subDeletePhase, itemDeletePhase, assignedCreates, hA, hB, hwA, hwB,
      hwA2, hwB2]
  have hrA : patchResult srv individual A = A := by
    rw [patchResult_some srv individual A ia hA,
      patchEntityReqs_no_subops ia A hAup hAdel]
    simp [hfail]
  have hrB : patchResult srv individual B =
      apply_server_snapshot B (updateSnap srv individual ib B) := by
    rw [patchResult_some srv individual B ib hB,
      patchEntityReqs_no_subops ib B hBup hBdel]
    simp [hok]
  have hupd : (commit srv individual ⟨[], [A, B], []⟩).updated =
      [A, apply_server_snapshot B (updateSnap srv individual ib B)] := by
    simp [commit, hrA, hrB]
  have herr : (commit srv individual ⟨[], [A, B], []⟩).error =
      some ⟨[Request.patchItem ib (payloadOf B)],
            [Request.patchItem ia (payloadOf A)]⟩ := by
    simp [commit, phasesTrace, createPhase, patchPhase, uploadPhase,
      subDeletePhase, itemDeletePhase, assignedCreates, hA, hB, hwA, hwB,
      hwA2, hwB2, List.filter, hfail, hok]
  refine ⟨?_, ?_, hupd, ?_, ?_, herr, ?_⟩
  · rw [htr]
    exact List.mem_cons_self _ _
  · rw [htr]
    exact List.mem_cons_of_mem _ (List.mem_cons_self _ _)
  · rw [KItem.is_dirty, hAdirty]
    rfl
  · rfl
  · intro srv2 individual2
    have hwA' : withIdReqs uploadReqs A = [] := hwA
    have htr2 : (commit srv2 individual2 ⟨[], [A], []⟩).trace =
        [Request.patchItem ia (payloadOf A)] := by
      simp [commit, phasesTrace, createPhase, patchPhase, uploadPhase,
        subDeletePhase, itemDeletePhase, assignedCreates, hA, hwA, hwA2]
    rw [htr2]
    exact List.mem_cons_self _ _

theorem applyKOp_dirty (it : KItem) (op : KOp) :
    (it.applyKOp op).is_dirty = true := by
  cases op <;> simp [KItem.applyKOp, KItem.is_dirty]

/-- C5.  `apply_server_snapshot` wholesale-overwrites every field of the
entity — identity and server-assigned timestamps included — from the
authoritative payload and leaves every slot synced (both pending sets empty,
visible contents adopted as baseline); the result is not dirty, while every
caller-facing mutation leaves an entity dirty, so a refresh is the only
operation after which `is_dirty` is false; and the Commit Engine refreshes
each touched entity — an updated one (it2) as well as a created one (itc) —
with its canonical snapshot exactly when all of that entity's operations
succeeded, leaving it untouched (hence dirty) otherwise. -/
theorem C5_apply_server_snapshot (it : KItem) (snap : Snapshot) (it2 : KItem)
    (i : String) (itc : KItem) (u : String) (srv : Server)
    (individual : Bool) (h2 : it2.id = some i) :
    (apply_server_snapshot it snap).id = some snap.id ∧
    (apply_server_snapshot it snap).name = snap.name ∧
    (apply_server_snapshot it snap).slug = some snap.slug ∧
    (apply_server_snapshot it snap).ktype_id = snap.ktype_id ∧
    (apply_server_snapshot it snap).created_at = some snap.created_at ∧
    (apply_server_snapshot it snap).updated_at = some snap.updated_at ∧
    (apply_server_snapshot it snap).custom_properties = snap.custom ∧
    (apply_server_snapshot it snap).custom_baseline = snap.custom ∧
    (apply_server_snapshot it snap).attachments =
      TrackedList.ofBaseline snap.attachments ∧
    (apply_server_snapshot it snap).attachments.pending_additions = ∅ ∧
    (apply_server_snapshot it snap).attachments.pending_deletions = ∅ ∧
    (apply_server_snapshot it snap).is_dirty = false ∧
    (∀ it3 : KItem, ∀ op : KOp, (it3.applyKOp op).is_dirty = true) ∧
    patchResult srv individual it2 =
      (if (patchEntityReqs i it2).all srv.ok then
        apply_server_snapshot it2 (updateSnap srv individual i it2)
      else it2) ∧
    ((patchEntityReqs i it2).all srv.ok = false →
      patchResult srv individual it2 = it2) ∧
    createResult srv individual u itc =
      (if (createEntityReqs u itc).all srv.ok then
        apply_server_snapshot itc (createSnap srv individual u itc)
      else itc) ∧
    ((createEntityReqs u itc).all srv.ok = false →
      createResult srv individual u itc = itc) := by
  refine ⟨rfl, rfl, rfl, rfl, rfl, rfl, rfl, rfl, rfl, rfl, rfl, rfl,
    applyKOp_dirty, patchResult_some srv individual it2 i h2, ?_, rfl, ?_⟩
  · intro hfalse
    rw [patchResult_some srv individual it2 i h2, if_neg]
    rw [hfalse]
    exact Bool.false_ne_true
  · intro hfalse
    rw [createResult, if_neg]
    rw [hfalse]
    exact Bool.false_ne_true

/-- A concrete authoritative payload, a concrete persisted entity and a
concrete transport double refusing every request, used as witnesses. -/
def snap0 : Snapshot :=
  ⟨"u1", "Old", "old-u1", "specimen", 1, 2, [("W", CVal.num 1)], ∅⟩

def itemOld : KItem :=
  ⟨some "a", "Old", some "old", "specimen", some 1, some 1, [],
    [("W", CVal.num 1)], TrackedList.ofBaseline ∅, true⟩

def srvDown : Server := ⟨5, [], fun _ => false⟩

/-- Concrete scenario for the ordering witness: one identity-less entity and
one dirty persisted entity staged in the same pass. -/
def itemNew : KItem :=
  ⟨none, "New", none, "specimen", none, none, [], [],
    TrackedList.ofBaseline ∅, true⟩

/-- C5, witness: the theorem applied to concrete entities, a snapshot and a
transport double refusing every request, so that both the updated and the
created entity are left untouched. -/
theorem C5_apply_server_snapshot_witness :
    itemOld.id = some "a" ∧
    (apply_server_snapshot itemOld snap0).is_dirty = false ∧
    patchResult srvDown true itemOld = itemOld ∧
    createResult srvDown true "u1" itemNew = itemNew :=
  have h := C5_apply_server_snapshot itemOld snap0 itemOld "a" itemNew "u1"
    srvDown true rfl
  ⟨rfl, h.2.2.2.2.2.2.2.2.2.2.2.1,
    h.2.2.2.2.2.2.2.2.2.2.2.2.2.2.1 (by decide),
    h.2.2.2.2.2.2.2.2.2.2.2.2.2.2.2.2 (by decide)⟩

def sess0 : Session := ⟨[itemNew], [itemOld], []⟩

def srv0 : Server := ⟨5, ["u1"], fun _ => true⟩

abbrev tr0 : List Request :=
  [Request.createItem "New" "specimen" [],
   Request.patchItem "a" [("W", CVal.num 1)]]

/-- C4, witness: on the concrete mixed pass the trace is the creation
followed by the patch, and the theorem instantiated there yields 0 < 1. -/
theorem C4_creates_before_patches_witness :
    ((commit srv0 true sess0).trace = tr0 ∧
      (tr0[0]).isCreate = true ∧ (tr0[1]).isPatchOrDelete = true) ∧
    (0 : ℕ) < 1 :=
  ⟨⟨by decide, by decide, by decide⟩,
    C4_creates_before_patches srv0 true sess0 tr0 0 1 (by decide) (by decide)
      (by decide) (by decide) (by decide)⟩

/-- 0.5, 0.1 and 0.2 as explicit reduced fractions. -/
def qHalf : ℚ := ⟨1, 2, by decide, by decide⟩

def qTenth : ℚ := ⟨1, 10, by decide, by decide⟩

def qFifth : ℚ := ⟨1, 5, by decide, by decide⟩

/-- The creation tutorial's custom properties: Width 0.5, Length [0.1, 0.2]. -/
def specimenCustom : Props :=
  [("Width", CVal.num qHalf), ("Length", CVal.arr [qTenth, qFifth])]

/-- The creation tutorial's new entity: name Specimen123, no slug, no
identity, no timestamps, dirty. -/
def specimenItem : KItem :=
  ⟨none, "Specimen123", none, "specimen", none, none, [], specimenCustom,
    TrackedList.ofBaseline ∅, true⟩

/-- The entity as refreshed after the first commit at server time t1, with
server-assigned identity u. -/
def stage1Item (t1 : ℕ) (u : String) : KItem :=
  (commit ⟨t1, [u], fun _ => true⟩ true
    ⟨[specimenItem], [], []⟩).created.getD 0 specimenItem

/-- The second-stage local mutations: Width set to 1, one attachment t.txt
appended. -/
def stage2Item (t1 : ℕ) (u : String) : KItem :=
  ((stage1Item t1 u).applyKOp (KOp.setCustom "Width" (CVal.num 1))).applyKOp
    (KOp.addAttachment "t.txt")

/-- The second commit pass, at server time t2. -/
def stage2Commit (t1 t2 : ℕ) (u : String) : CommitOutcome :=
  commit ⟨t2, [], fun _ => true⟩ true ⟨[], [stage2Item t1 u], []⟩

/-- C6.  The two-stage tutorial scenario: creating Specimen123 with custom
properties Width 0.5 and Length [0.1, 0.2] and committing yields a populated
identity, created_at equal to updated_at and dirty false; setting Width to 1,
appending the single attachment t.txt and committing again issues exactly one
patch request, carrying exactly the payload Width 1, and exactly one
attachment-upload request, for t.txt, after which the refreshed updated_at
(the second server instant) is strictly greater than the retained
created_at. -/
theorem C6_two_stage_scenario (t1 t2 : ℕ) (u : String) (hlt : t1 < t2) :
    (stage1Item t1 u).id = some u ∧
    (stage1Item t1 u).created_at = some t1 ∧
    (stage1Item t1 u).updated_at = some t1 ∧
    (stage1Item t1 u).is_dirty = false ∧
    (stage2Commit t1 t2 u).trace.filter Request.isPatch =
      [Request.patchItem u [("Width", CVal.num 1)]] ∧
    (stage2Commit t1 t2 u).trace.filter Request.isUpload =
      [Request.uploadAttachment u "t.txt"] ∧
    ((stage2Commit t1 t2 u).updated.getD 0 (stage2Item t1 u)).created_at =
      some t1 ∧
    ((stage2Commit t1 t2 u).updated.getD 0 (stage2Item t1 u)).updated_at =
      some t2 ∧
    t1 < t2 := by
  refine ⟨rfl, rfl, rfl, rfl, ?_, ?_, ?_, ?_, hlt⟩ <;> rfl

/-- A second persisted dirty entity for the partial-failure witness. -/
def itemB : KItem :=
  ⟨some "b", "B", some "bslug", "specimen", some 1, some 1, [],
    [("W", CVal.num 2)], TrackedList.ofBaseline ∅, true⟩

/-- Transport double failing exactly entity a's patch. -/
def srvPartial : Server :=
  ⟨7, [], fun r => decide (r ≠ Request.patchItem "a" [("W", CVal.num 1)])⟩

/-- C2, witness: entity a's patch refused, entity b's accepted; b is
refreshed and clean, a untouched, and the error enumerates both. -/
theorem C2_partial_failure_witness :
    (itemOld.id = some "a" ∧ itemB.id = some "b" ∧
      srvPartial.ok (Request.patchItem "a" (payloadOf itemOld)) = false ∧
      srvPartial.ok (Request.patchItem "b" (payloadOf itemB)) = true) ∧
    ((commit srvPartial true ⟨[], [itemOld, itemB], []⟩).updated =
      [itemOld,
        apply_server_snapshot itemB (updateSnap srvPartial true "b" itemB)] ∧
      (commit srvPartial true ⟨[], [itemOld, itemB], []⟩).error =
        some ⟨[Request.patchItem "b" (payloadOf itemB)],
              [Request.patchItem "a" (payloadOf itemOld)]⟩) :=
  have h := C2_partial_failure srvPartial true itemOld itemB "a" "b" (by rfl)
    (by rfl) (by rfl) (by rfl) (by rfl) (by rfl) (by rfl) (by decide)
    (by decide)
  ⟨⟨by rfl, by rfl, by decide, by decide⟩, h.2.2.1, h.2.2.2.2.2.1⟩

/-- C6, witness: the scenario at server instants 1 and 2 and a concrete
server-assigned identity. -/
theorem C6_two_stage_scenario_witness :
    (1 : ℕ) < 2 ∧
    (stage1Item 1 "73d648b4").id = some "73d648b4" ∧
    ((stage2Commit 1 2 "73d648b4").updated.getD 0
      (stage2Item 1 "73d648b4")).updated_at = some 2 :=
  have h := C6_two_stage_scenario 1 2 "73d648b4" (by decide)
  ⟨by decide, h.1, h.2.2.2.2.2.2.2.1⟩

/-- One lifecycle step of a single entity: a local mutation, or one commit
round in which the entity is created (if it has no identity) or patched and
refreshed (if it has one). -/
inductive EntityStep
  | mutate (op : KOp)
  | commitRound (srv : Server) (individual : Bool)

def KItem.applyStep (it : KItem) : EntityStep → KItem
  | .mutate op => it.applyKOp op
  | .commitRound srv individual =>
    match it.id with
    | none => createResult srv individual (srv.freshIds.getD 0 "") it
    | some _ => patchResult srv individual it

def KItem.runSteps (it : KItem) (steps : List EntityStep) : KItem :=
  steps.foldl KItem.applyStep it

theorem applyKOp_id (it : KItem) (op : KOp) : (it.applyKOp op).id = it.id := by
  cases op <;> rfl

theorem applyKOp_ktype (it : KItem) (op : KOp) (i : String)
    (h : it.id = some i) : (it.applyKOp op).ktype_id = it.ktype_id := by
  cases op <;> simp [KItem.applyKOp, h]

theorem patchResult_id (srv : Server) (individual : Bool) (it : KItem)
    (i : String) (h : it.id = some i) :
    (patchResult srv individual it).id = some i := by
  rw [patchResult_some srv individual it i h]
  split
  · rfl
  · exact h

theorem patchResult_ktype (srv : Server) (individual : Bool) (it : KItem)
    (i : String) (h : it.id = some i) :
    (patchResult srv individual it).ktype_id = it.ktype_id := by
  rw [patchResult_some srv individual it i h]
  split <;> rfl

theorem applyStep_id (it : KItem) (st : EntityStep) (i : String)
    (h : it.id = some i) : (it.applyStep st).id = some i := by
  cases st with
  | mutate op => rw [KItem.applyStep, applyKOp_id, h]
  | commitRound srv individual =>
    simp only [KItem.applyStep]
    rw [h]
    exact patchResult_id srv individual it i h

theorem applyStep_ktype (it : KItem) (st : EntityStep) (i : String)
    (h : it.id = some i) : (it.applyStep st).ktype_id = it.ktype_id := by
  cases st with
  | mutate op => exact applyKOp_ktype it op i h
  | commitRound srv individual =>
    simp only [KItem.applyStep]
    rw [h]
    exact patchResult_ktype srv individual it i h

/-- C8.  Once the server has assigned an entity its identity — that is, after
its first successful creation — the identity never changes under any further
sequence of local mutations and commit rounds, and the entity's type
reference is likewise fixed: the mutation language only permits setting the
type reference on a never-created entity, and every refresh carries the same
identity and type reference back from the canonical snapshot. -/
theorem C8_identity_and_type_fixed (it : KItem) (steps : List EntityStep)
    (i : String) (h : it.id = some i) :
    (it.runSteps steps).id = some i ∧
    (it.runSteps steps).ktype_id = it.ktype_id := by
  induction steps generalizing it with
  | nil => exact ⟨h, rfl⟩
  | cons st steps ih =>
    have hid : (it.applyStep st).id = some i := applyStep_id it st i h
    obtain ⟨h1, h2⟩ := ih (it.applyStep st) hid
    exact ⟨h1, h2.trans (applyStep_ktype it st i h)⟩

/-- C8, witness: a persisted entity, one attempted type change, one commit
round. -/
theorem C8_identity_and_type_fixed_witness :
    itemOld.id = some "a" ∧
    (itemOld.runSteps [EntityStep.mutate (KOp.setKtype "other"),
      EntityStep.commitRound srv0 true]).id = some "a" ∧
    (itemOld.runSteps [EntityStep.mutate (KOp.setKtype "other"),
      EntityStep.commitRound srv0 true]).ktype_id = itemOld.ktype_id :=
  have h := C8_identity_and_type_fixed itemOld
    [EntityStep.mutate (KOp.setKtype "other"),
      EntityStep.commitRound srv0 true] "a" rfl
  ⟨rfl, h.1, h.2⟩

/-- C9.  Invoking commit on a Session whose add/update/delete buffers are all
empty performs no remote operation and reports the recorded UserWarning
("Nothing to commit. ...") instead of raising an error.  Mutations act on the
entity value alone and never touch the Session buffers — staging happens only
through `dsms.add` / `del dsms[...]` — so mutating a fetched object without
staging it leaves the buffers empty and such mutations alone are never
synchronized; by contrast, staging the (arbitrarily mutated) object places it
in exactly one buffer. -/
theorem C9_empty_commit_warns (srv : Server) (individual : Bool) (s : Session)
    (obj : KItem) (ops : List KOp)
    (h : s.added = [] ∧ s.updated = [] ∧ s.deleted = []) :
    commit srv individual s = ⟨[], [], [], some nothingToCommitMsg, none⟩ ∧
    (commit srv individual s).trace = [] ∧
    (commit srv individual s).error = none ∧
    (Session.empty.add (obj.applyKOps ops)).added ++
      (Session.empty.add (obj.applyKOps ops)).updated = [obj.applyKOps ops] := by
  have hc : commit srv individual s =
      ⟨[], [], [], some nothingToCommitMsg, none⟩ := by
    rw [commit, if_pos h]
  refine ⟨hc, by rw [hc], by rw [hc], ?_⟩
  rw [Session.add]
  split <;> rfl

/-- C9, witness: the empty session, a fetched entity mutated but never
staged. -/
theorem C9_empty_commit_warns_witness :
    (Session.empty.added = [] ∧ Session.empty.updated = [] ∧
      Session.empty.deleted = []) ∧
    commit srv0 true Session.empty =
      ⟨[], [], [], some nothingToCommitMsg, none⟩ :=
  ⟨⟨rfl, rfl, rfl⟩,
    (C9_empty_commit_warns srv0 true Session.empty itemOld
      [KOp.setName "Renamed"] ⟨rfl, rfl, rfl⟩).1⟩

/-- A locally constructed entity with no slug, identity or timestamps. -/
def rawItem (nm ktype : String) (custom : Props) : KItem :=
  ⟨none, nm, none, ktype, none, none, [], custom,
    TrackedList.ofBaseline ∅, true⟩

/-- C10.  For an entity created without an explicit slug, the first
successful commit derives the slug from the lowercased name, a hyphen and the
first 8 characters of the server-assigned identity, with the session's
individual_slugs setting enabled (its default). -/
theorem C10_slug_generation (nm ktype : String) (custom : Props)
    (srv : Server) (u : String) (hfresh : srv.freshIds = [u])
    (hok : ∀ r, srv.ok r = true) :
    ((commit srv true ⟨[rawItem nm ktype custom], [], []⟩).created.getD 0
      (rawItem nm ktype custom)).slug =
      some (slugify nm ++ "-" ++ takeChars 8 u) := by
  have hall : (createEntityReqs u (rawItem nm ktype custom)).all srv.ok
      = true := by
    rw [List.all_eq_true]
    intro r _
    exact hok r
  have hcre : (commit srv true ⟨[rawItem nm ktype custom], [], []⟩).created =
      [createResult srv true u (rawItem nm ktype custom)] := by
    simp [commit, assignedCreates, hfresh]
  rw [hcre, List.getD_cons_zero, createResult, if_pos hall]
  simp [apply_server_snapshot, createSnap, genSlug, rawItem]

/-- Transport double for the slug witness: the identity recorded in the
creation tutorial, everything succeeding. -/
def srvC10 : Server :=
  ⟨1, ["73d648b4-4619-4a02-a0da-64818df3851e"], fun _ => true⟩

/-- C10, witness: Specimen123 with the recorded identity yields the recorded
slug specimen123-73d648b4. -/
theorem C10_slug_generation_witness :
    (srvC10.freshIds = ["73d648b4-4619-4a02-a0da-64818df3851e"] ∧
      ∀ r, srvC10.ok r = true) ∧
    ((commit srvC10 true ⟨[rawItem "Specimen123" "specimen" []], [],
        []⟩).created.getD 0 (rawItem "Specimen123" "specimen" [])).slug =
      some "specimen123-73d648b4" :=
  ⟨⟨rfl, fun _ => rfl⟩,
    (C10_slug_generation "Specimen123" "specimen" [] srvC10
      "73d648b4-4619-4a02-a0da-64818df3851e" rfl (fun _ => rfl)).trans
      (by decide)⟩

end DSMS
